import Mathlib

/-!
# Verification of the club-space reservation core (`main.py`)

Shallow embedding of the booking-conflict detection and slot-normalization
logic of the FastAPI club-booking application, together with proofs about
the spec's claims.

Conventions of the embedding:

* Python `datetime.time` objects always satisfy `0 ≤ hour ≤ 23` and
  `0 ≤ minute ≤ 59` (enforced by the constructor, which raises `ValueError`
  otherwise); we model them as a plain structure of two `Nat` fields and
  compare them lexicographically on `(hour, minute)`, exactly as Python
  compares `time` objects (second/microsecond are always 0 here).
* Python `datetime.date` objects are modelled as a `(year, month, day)`
  structure; parsing via `datetime.strptime(s, "%Y-%m-%d")` is modelled
  after CPython's `_strptime` regexes: `%Y` matches exactly four digits,
  `%m` and `%d` match one or two digits, month must be in `[1,12]`, day in
  `[1, days_in_month]`, year in `[1, 9999]` (year 0 is rejected by the
  `datetime` constructor), and no unconverted data may remain.
* Fallible Python code (functions that raise) is modelled with `Option` /
  explicit error results.
* The database is modelled as in-memory lists; `query(...).filter(...)
  .first()` becomes `List.find?`, and the SQLite autoincrement primary key
  becomes an explicit `next_booking_id` counter.
-/

/-- A wall-clock time of day, modelling Python's `datetime.time` restricted
to the `(hour, minute)` fields used by the program. -/
structure Time where
  hour : Nat
  minute : Nat
deriving DecidableEq, Repr

namespace Time

/-- `a ≤ b` on times, as a Bool: Python compares `time` objects
lexicographically on their fields. -/
def leb (a b : Time) : Bool :=
  decide (a.hour < b.hour ∨ (a.hour = b.hour ∧ a.minute ≤ b.minute))

/-- `a < b` on times, as a Bool (lexicographic). -/
def ltb (a b : Time) : Bool :=
  decide (a.hour < b.hour ∨ (a.hour = b.hour ∧ a.minute < b.minute))

theorem leb_iff {a b : Time} :
    leb a b = true ↔ a.hour < b.hour ∨ (a.hour = b.hour ∧ a.minute ≤ b.minute) := by
  simp [leb]

theorem ltb_iff {a b : Time} :
    ltb a b = true ↔ a.hour < b.hour ∨ (a.hour = b.hour ∧ a.minute < b.minute) := by
  simp [ltb]

end Time

/-- Model of the Python `time(hour, minute)` constructor: raises
`ValueError` (here: `none`) unless `0 ≤ hour ≤ 23` and `0 ≤ minute ≤ 59`. -/
def mk_time (hour minute : Int) : Option Time :=
  if 0 ≤ hour ∧ hour ≤ 23 ∧ 0 ≤ minute ∧ minute ≤ 59 then
    some ⟨hour.toNat, minute.toNat⟩
  else
    none

/-- A calendar date, modelling Python's `datetime.date`. -/
structure Date where
  year : Nat
  month : Nat
  day : Nat
deriving DecidableEq, Repr

/-- Gregorian leap-year rule, as used by Python's `datetime`. -/
def is_leap_year (y : Nat) : Bool :=
  (y % 4 == 0 && y % 100 != 0) || (y % 400 == 0)

/-- Number of days in a month, as validated by Python's `datetime`. -/
def days_in_month (y m : Nat) : Nat :=
  if m = 2 then (if is_leap_year y then 29 else 28)
  else if m = 4 ∨ m = 6 ∨ m = 9 ∨ m = 11 then 30
  else 31

/-- Model of Python's `str.split(sep)` for a single-character separator,
acting on the character list of the string: splits at every occurrence of
the separator, keeping empty pieces. -/
def split_on (sep : Char) : List Char → List (List Char)
  | [] => [[]]
  | c :: rest =>
    let r := split_on sep rest
    if c = sep then [] :: r
    else
      match r with
      | [] => [[c]]
      | p :: ps => (c :: p) :: ps

/-- Parse a non-empty all-digit character list as a `Nat`. -/
def parse_digits (l : List Char) : Option Nat :=
  if l ≠ [] ∧ l.all (fun c => c.isDigit) then
    some (l.foldl (fun acc c => acc * 10 + (c.toNat - '0'.toNat)) 0)
  else
    none

/-- Model of Python's `int(str)`: an optional sign followed by decimal
digits.  (Python's `int` also strips surrounding whitespace and allows
underscores between digits; no claim depends on those inputs, and every
concrete input in the spec is sign-free digits.) -/
def str_to_int (l : List Char) : Option Int :=
  match l with
  | '-' :: rest => (parse_digits rest).map (fun n => -(n : Int))
  | '+' :: rest => (parse_digits rest).map (fun n => (n : Int))
  | _ => (parse_digits l).map (fun n => (n : Int))

/-- Decimal digits of a natural number, via `Nat.toDigits`. -/
def nat_digits (n : Nat) : List Char :=
  Nat.toDigits 10 n

/-- `main.py` line 239: `start_hour + 1 if start_hour < 23 else 0`.
Python ints are unbounded, so the argument is an `Int`. -/
def get_end_hour_from_start_hour (start_hour : Int) : Int :=
  if start_hour < 23 then start_hour + 1 else 0

/-- `main.py` line 251: `f"{end_hour:02d}:00"`.  The format pads the signed
decimal representation to a minimum total width of two characters with
leading zeroes. -/
def get_end_time_from_end_hour (end_hour : Int) : List Char :=
  (if end_hour < 0 then
    '-' :: nat_digits end_hour.natAbs
  else
    (let ds := nat_digits end_hour.toNat
     if ds.length < 2 then '0' :: ds else ds)) ++ [':', '0', '0']

/-- `main.py` line 263: `datetime.strptime(booking_date, "%Y-%m-%d").date()`.
Raises `ValueError` (here: `none`) when the string does not match the
format or the field values do not form a real calendar date. -/
def get_date_object_from_string (booking_date : List Char) : Option Date :=
  match split_on '-' booking_date with
  | [ys, ms, ds] =>
    match parse_digits ys, parse_digits ms, parse_digits ds with
    | some y, some m, some d =>
      if ys.length = 4 ∧ 1 ≤ y ∧
         1 ≤ ms.length ∧ ms.length ≤ 2 ∧ 1 ≤ m ∧ m ≤ 12 ∧
         1 ≤ ds.length ∧ ds.length ≤ 2 ∧ 1 ≤ d ∧ d ≤ days_in_month y m then
        some ⟨y, m, d⟩
      else
        none
    | _, _, _ => none
  | _ => none

/-- `main.py` line 275:
`time(int(time_string.split(':')[0]), int(time_string.split(':')[1]))`.
Any raised exception (`IndexError` for a missing part, `ValueError` from
`int` or from the `time` constructor) is modelled as `none`.  Note that
pieces beyond the second are ignored, as in the source. -/
def get_time_object_from_string (time_string : List Char) : Option Time :=
  match split_on ':' time_string with
  | p0 :: p1 :: _ =>
    match str_to_int p0, str_to_int p1 with
    | some h, some m => mk_time h m
    | _, _ => none
  | _ => none

/-- `main.py` line 362:
`start_hour, start_minute = map(int, start_time.split(':'))`.
The two-variable unpacking raises `ValueError` unless the split yields
exactly two pieces, and each piece must parse as an int. -/
def split_two_ints (s : List Char) : Option (Int × Int) :=
  match split_on ':' s with
  | [p0, p1] =>
    match str_to_int p0, str_to_int p1 with
    | some a, some b => some (a, b)
    | _, _ => none
  | _ => none

/-- A row of the `clubs` table. -/
structure Club where
  club_id : Nat
  club_name : String
deriving DecidableEq, Repr

/-- A row of the `bookings` table. -/
structure Booking where
  booking_id : Nat
  club_id : Nat
  space_id : Int
  booking_date : Date
  start_time : Time
  end_time : Time
deriving DecidableEq, Repr

/-- The persistent state the reservation core reads and writes: the `clubs`
table, the `bookings` table, and the autoincrement counter for
`booking_id`. -/
structure AppState where
  clubs : List Club
  bookings : List Booking
  next_booking_id : Nat
deriving DecidableEq, Repr

/-- `main.py` lines 289-292: look up the first club with the given name
(`query(Club).filter(club_name == name).first()`). -/
def verify_club_exists (club_name : String) (clubs : List Club) : Option Club :=
  clubs.find? (fun c => decide (c.club_name = club_name))

/-- The three-clause overlap disjunction of `check_existing_booking`
(`main.py` lines 312-314), with `ex_start`/`ex_end` the stored booking's
interval and `cand_start`/`cand_end` the candidate interval:
`(ex.start <= cand.start AND ex.end > cand.start) OR
 (ex.start < cand.end AND ex.end >= cand.end) OR
 (ex.start >= cand.start AND ex.end <= cand.end)`. -/
def booking_overlaps (ex_start ex_end cand_start cand_end : Time) : Bool :=
  (Time.leb ex_start cand_start && Time.ltb cand_start ex_end) ||
  (Time.ltb ex_start cand_end && Time.leb cand_end ex_end) ||
  (Time.leb cand_start ex_start && Time.leb ex_end cand_end)

/-- `main.py` lines 309-315: return the first stored booking with the same
`space_id` and `booking_date` whose interval overlaps the candidate
interval. -/
def check_existing_booking (space_id : Int) (booking_date : Date)
    (start_time end_time : Time) (db : List Booking) : Option Booking :=
  db.find? (fun b =>
    decide (b.space_id = space_id) &&
    decide (b.booking_date = booking_date) &&
    booking_overlaps b.start_time b.end_time start_time end_time)

/-- The exceptions the booking path can raise.  `verify_club_exists` and the
slot-taken branch raise `fastapi.HTTPException` with an explicit status
code and detail string; the parsing steps raise plain `ValueError` (from
`strptime`, `int`, tuple unpacking, or the `time` constructor). -/
inductive BookingError where
  | httpException (status_code : Nat) (detail : String)
  | valueError
deriving DecidableEq, Repr

/-- HTTP status of the response produced for an error escaping the route
handler: FastAPI returns an `HTTPException`'s own `status_code`, and turns
any other uncaught exception into a 500 Internal Server Error. -/
def BookingError.httpStatus : BookingError → Nat
  | .httpException s _ => s
  | .valueError => 500

/-- `main.py` lines 361-369 of `create_booking`, factored out: what the
spec calls the Slot Normalizer.  Computes, in source order: the split of
the start-time string into two ints (line 362), the end hour (363) and
end-time string (364), the parsed date (367), the parsed start time (368)
and the parsed end time (369).  `none` models a raised `ValueError`. -/
def normalize_slot (booking_date start_time : List Char) :
    Option (Date × Time × Time) :=
  match split_two_ints start_time with
  | none => none
  | some (start_hour, _start_minute) =>
    let end_hour := get_end_hour_from_start_hour start_hour
    let end_time := get_end_time_from_end_hour end_hour
    match get_date_object_from_string booking_date with
    | none => none
    | some booking_date_obj =>
      match get_time_object_from_string start_time with
      | none => none
      | some start_time_obj =>
        match get_time_object_from_string end_time with
        | none => none
        | some end_time_obj => some (booking_date_obj, start_time_obj, end_time_obj)

/-- `main.py` lines 334-387, `create_booking`: resolve the club, normalize
the slot, check for a conflicting booking, and on success append a new
`Booking` row with the next autoincrement id.  The state is returned
unchanged on every error path (the exception is raised before `db.add`). -/
def create_booking (club_name : String) (space_id : Int)
    (booking_date start_time : String) (db : AppState) :
    AppState × Except BookingError Nat :=
  match verify_club_exists club_name db.clubs with
  | none => (db, .error (.httpException 400 "Club not found."))
  | some club =>
    match normalize_slot booking_date.data start_time.data with
    | none => (db, .error .valueError)
    | some (booking_date_obj, start_time_obj, end_time_obj) =>
      match check_existing_booking space_id booking_date_obj start_time_obj
          end_time_obj db.bookings with
      | some _ =>
        (db, .error (.httpException 400
          "This time slot is already booked for the selected space."))
      | none =>
        let new_booking : Booking :=
          ⟨db.next_booking_id, club.club_id, space_id, booking_date_obj,
            start_time_obj, end_time_obj⟩
        ({db with
            bookings := db.bookings ++ [new_booking],
            next_booking_id := db.next_booking_id + 1},
          .ok db.next_booking_id)

/-- One admission request: `(club_name, space_id, booking_date, start_time)`. -/
abbrev AdmitRequest := String × Int × String × String

/-- Run a list of admission requests sequentially, threading the state. -/
def run_requests : List AdmitRequest → AppState → AppState
  | [], db => db
  | (cn, sp, bd, st) :: rs, db => run_requests rs (create_booking cn sp bd st db).1

/-! ## Semantics of intervals and the non-overlap invariant -/

/-- `t` lies in the half-open interval `[s, e)` of times-of-day (in the
lexicographic order on `(hour, minute)` that Python uses for `time`
objects).  Under this within-day reading, a wrapped interval such as
`[23:00, 00:00)` denotes the empty set. -/
def Time.mem_slot (t s e : Time) : Prop :=
  Time.leb s t = true ∧ Time.ltb t e = true

/-- Two booking rows have non-overlapping `[start_time, end_time)`
intervals: no time of day lies in both. -/
def no_overlap (b1 b2 : Booking) : Prop :=
  ∀ t : Time, ¬(Time.mem_slot t b1.start_time b1.end_time ∧
                Time.mem_slot t b2.start_time b2.end_time)

/-- The rows of the bookings table belonging to one `(space_id,
booking_date)` key. -/
def same_slot_key (space_id : Int) (d : Date) (b : Booking) : Bool :=
  decide (b.space_id = space_id) && decide (b.booking_date = d)

/-- The single correctness invariant of the ledger: for the given
`(space_id, booking_date)` pair, the stored intervals are pairwise
non-overlapping. -/
def pairwise_non_overlapping (l : List Booking) (space_id : Int) (d : Date) : Prop :=
  (l.filter (same_slot_key space_id d)).Pairwise no_overlap

/-! ## Helper lemmas -/

/-- If the three-clause overlap test is false, the two intervals are
disjoint as sets of times of day. -/
theorem booking_overlaps_eq_false_disjoint {es ee cs ce : Time}
    (h : booking_overlaps es ee cs ce = false) (t : Time) :
    ¬(Time.mem_slot t es ee ∧ Time.mem_slot t cs ce) := by
  rintro ⟨⟨a1, a2⟩, ⟨b1, b2⟩⟩
  rw [Time.leb_iff] at a1 b1
  rw [Time.ltb_iff] at a2 b2
  have htrue : booking_overlaps es ee cs ce = true := by
    simp only [booking_overlaps, Bool.or_eq_true, Bool.and_eq_true,
      Time.leb_iff, Time.ltb_iff]
    omega
  rw [h] at htrue
  exact Bool.false_ne_true htrue

/-- A successful conflict check means the candidate interval is disjoint
from every stored interval with the same `(space_id, booking_date)` key. -/
theorem check_none_disjoint {space_id : Int} {d : Date} {s e : Time}
    {db : List Booking}
    (h : check_existing_booking space_id d s e db = none) :
    ∀ b ∈ db, same_slot_key space_id d b = true →
      ∀ t : Time, ¬(Time.mem_slot t b.start_time b.end_time ∧ Time.mem_slot t s e) := by
  intro b hb hkey t
  have hfind := List.find?_eq_none.mp h b hb
  simp only [same_slot_key, Bool.and_eq_true, decide_eq_true_iff] at hkey
  have hov : booking_overlaps b.start_time b.end_time s e = false := by
    rcases Bool.eq_false_or_eq_true (booking_overlaps b.start_time b.end_time s e) with h' | h'
    · exfalso
      apply hfind
      simp only [Bool.and_eq_true, decide_eq_true_iff]
      exact ⟨⟨hkey.1, hkey.2⟩, h'⟩
    · exact h'
  exact booking_overlaps_eq_false_disjoint hov t

/-- A successful admission appends the candidate row; every error path
leaves the state unchanged.  Either way the non-overlap invariant for any
`(space_id, booking_date)` key is preserved. -/
theorem create_booking_fst_preserves (club_name : String) (space : Int)
    (bd st : String) (db : AppState) (sp : Int) (d : Date)
    (h : pairwise_non_overlapping db.bookings sp d) :
    pairwise_non_overlapping (create_booking club_name space bd st db).1.bookings sp d := by
  unfold create_booking
  cases hclub : verify_club_exists club_name db.clubs with
  | none => exact h
  | some club =>
    dsimp only
    cases hnorm : normalize_slot bd.data st.data with
    | none => exact h
    | some triple =>
      obtain ⟨dObj, sObj, eObj⟩ := triple
      dsimp only
      cases hcheck : check_existing_booking space dObj sObj eObj db.bookings with
      | some b => exact h
      | none =>
        dsimp only
        show pairwise_non_overlapping
          (db.bookings ++ [⟨db.next_booking_id, club.club_id, space, dObj, sObj, eObj⟩]) sp d
        unfold pairwise_non_overlapping at h ⊢
        rw [List.filter_append]
        by_cases hkey :
            same_slot_key sp d ⟨db.next_booking_id, club.club_id, space, dObj, sObj, eObj⟩ = true
        · rw [List.filter_cons, if_pos hkey, List.filter_nil, List.pairwise_append]
          refine ⟨h, by simp, ?_⟩
          intro a ha b hb
          simp only [List.mem_singleton] at hb
          subst hb
          rw [List.mem_filter] at ha
          simp only [same_slot_key, Bool.and_eq_true, decide_eq_true_iff] at hkey
          obtain ⟨hsp, hd⟩ := hkey
          subst hsp
          subst hd
          intro t ht
          exact check_none_disjoint hcheck a ha.1 ha.2 t ⟨ht.1, ht.2⟩
        · rw [List.filter_cons, if_neg hkey, List.filter_nil, List.append_nil]
          exact h

/-- C1: for every sequence of `create_booking` calls executed sequentially
against a ledger whose bookings for a given `(space_id, booking_date)` pair
have pairwise non-overlapping `[start_time, end_time)` intervals, that
property is preserved: after running the whole sequence (hence after each
admission, by instantiating with a prefix) the stored intervals for that
pair remain pairwise non-overlapping.  Failed calls leave the state
untouched. -/
theorem claim_C1_admit_preserves_non_overlap (reqs : List AdmitRequest)
    (db : AppState) (sp : Int) (d : Date)
    (h : pairwise_non_overlapping db.bookings sp d) :
    pairwise_non_overlapping (run_requests reqs db).bookings sp d := by
  induction reqs generalizing db with
  | nil => exact h
  | cons r rs ih =>
    obtain ⟨cn, spc, bd, st⟩ := r
    exact ih _ (create_booking_fst_preserves cn spc bd st db sp d h)

/-- Concrete instance of C1: a two-request sequence run from an empty
ledger keeps the invariant for space 1 on 2024-10-01. -/
theorem claim_C1_witness :
    pairwise_non_overlapping
      (run_requests
        [("Chess Club", 1, "2024-10-01", "14:00"),
         ("Chess Club", 1, "2024-10-01", "14:30")]
        ⟨[⟨1, "Chess Club"⟩], [], 1⟩).bookings 1 ⟨2024, 10, 1⟩ :=
  claim_C1_admit_preserves_non_overlap _ _ _ _
    (by simp [pairwise_non_overlapping])

/-- C2: for proper intervals (start < end) on the same space and date, the
three-clause overlap disjunction of `check_existing_booking` reports a
conflict in both containment directions: when the candidate is fully
contained in the existing interval, and when the existing interval is fully
contained in the candidate. -/
theorem claim_C2_containment_both_directions (es ee cs ce : Time)
    (hex : Time.ltb es ee = true) (hcand : Time.ltb cs ce = true) :
    (Time.leb es cs = true → Time.leb ce ee = true →
      booking_overlaps es ee cs ce = true) ∧
    (Time.leb cs es = true → Time.leb ee ce = true →
      booking_overlaps es ee cs ce = true) := by
  rw [Time.ltb_iff] at hex hcand
  constructor <;> intro h1 h2 <;>
    (rw [Time.leb_iff] at h1 h2
     simp only [booking_overlaps, Bool.or_eq_true, Bool.and_eq_true,
       Time.leb_iff, Time.ltb_iff]
     omega)

/-- Concrete instance of C2: A = [09:00, 13:00) and B = [10:00, 11:00)
conflict in both admission orders (existing A against candidate B, and
existing B against candidate A). -/
theorem claim_C2_witness :
    booking_overlaps ⟨9, 0⟩ ⟨13, 0⟩ ⟨10, 0⟩ ⟨11, 0⟩ = true ∧
    booking_overlaps ⟨10, 0⟩ ⟨11, 0⟩ ⟨9, 0⟩ ⟨13, 0⟩ = true :=
  ⟨(claim_C2_containment_both_directions ⟨9, 0⟩ ⟨13, 0⟩ ⟨10, 0⟩ ⟨11, 0⟩
      (by decide) (by decide)).1 (by decide) (by decide),
   (claim_C2_containment_both_directions ⟨10, 0⟩ ⟨11, 0⟩ ⟨9, 0⟩ ⟨13, 0⟩
      (by decide) (by decide)).2 (by decide) (by decide)⟩

/-- A ledger holding the club "Chess Club" (id 1), no bookings, and
autoincrement counter at 1. -/
def chess_state : AppState := ⟨[⟨1, "Chess Club"⟩], [], 1⟩

/-- C3: starting from a ledger with no bookings and the club "Chess Club",
admitting space 1 on 2024-10-01 at 14:00 succeeds with a booking id; a
second admission at 14:30 fails with the slot-taken error; a third at
15:00 succeeds (adjacent half-open intervals do not conflict). -/
theorem claim_C3_end_to_end_scenario :
    (create_booking "Chess Club" 1 "2024-10-01" "14:00" chess_state).2 = .ok 1 ∧
    (create_booking "Chess Club" 1 "2024-10-01" "14:30"
        (create_booking "Chess Club" 1 "2024-10-01" "14:00" chess_state).1).2 =
      .error (.httpException 400
        "This time slot is already booked for the selected space.") ∧
    (create_booking "Chess Club" 1 "2024-10-01" "15:00"
        (create_booking "Chess Club" 1 "2024-10-01" "14:30"
          (create_booking "Chess Club" 1 "2024-10-01" "14:00" chess_state).1).1).2 =
      .ok 2 :=
  ⟨rfl, rfl, rfl⟩

/-- If the strict two-piece split used by `create_booking` succeeds, the
tolerant parser `get_time_object_from_string` sees the same two integers. -/
theorem get_time_of_split_two {s : List Char} {a b : Int}
    (h : split_two_ints s = some (a, b)) :
    get_time_object_from_string s = mk_time a b := by
  unfold split_two_ints at h
  split at h
  next p0 p1 heq =>
    split at h
    next x y hx hy =>
      simp only [Option.some.injEq, Prod.mk.injEq] at h
      obtain ⟨rfl, rfl⟩ := h
      unfold get_time_object_from_string
      rw [heq]
      dsimp only
      rw [hx, hy]
    next => exact Option.noConfusion h
  next => exact Option.noConfusion h

/-- Formatting an in-range hour with the end-time formatter and re-parsing
it yields the hour back, with minute 0. -/
theorem end_hour_roundtrip : ∀ n : Nat, n ≤ 23 →
    get_time_object_from_string (get_end_time_from_end_hour (Int.ofNat n)) =
      some ⟨n, 0⟩ := by
  decide

/-- C4: for every start-time string that splits into two in-range integers
`(HH, MM)` (hour in [0,23], minute in [0,59]) and any parseable date
string, the slot normalizer preserves the start hour and minute exactly and
computes `end_hour = HH + 1`, `end_minute = 0` for `HH ≤ 22`, and
`end_hour = 0`, `end_minute = 0` for `HH = 23`. -/
theorem claim_C4_normalizer_end_hour (bd ts : List Char) (dObj : Date)
    (h m : Int)
    (hdate : get_date_object_from_string bd = some dObj)
    (hsplit : split_two_ints ts = some (h, m))
    (hh0 : 0 ≤ h) (hh : h ≤ 23) (hm0 : 0 ≤ m) (hm : m ≤ 59) :
    normalize_slot bd ts =
      some (dObj, ⟨h.toNat, m.toNat⟩,
        ⟨if h = 23 then 0 else h.toNat + 1, 0⟩) := by
  have htime : get_time_object_from_string ts = some ⟨h.toNat, m.toNat⟩ := by
    rw [get_time_of_split_two hsplit]
    unfold mk_time
    rw [if_pos ⟨hh0, hh, hm0, hm⟩]
  unfold normalize_slot
  rw [hsplit]
  dsimp only
  rw [hdate, htime]
  by_cases h23 : h = 23
  · subst h23
    rw [show get_end_hour_from_start_hour 23 = Int.ofNat 0 from rfl]
    rw [end_hour_roundtrip 0 (by omega)]
    simp
  · have hlt : h < 23 := by omega
    have hend : get_end_hour_from_start_hour h = Int.ofNat (h.toNat + 1) := by
      unfold get_end_hour_from_start_hour
      rw [if_pos hlt]
      show h + 1 = ((h.toNat + 1 : Nat) : Int)
      omega
    rw [hend, end_hour_roundtrip (h.toNat + 1) (by omega)]
    simp [h23]

/-- Concrete instance of C4: "14:30" with date "2024-10-01" normalizes to
start 14:30 and end 15:00. -/
theorem claim_C4_witness :
    normalize_slot "2024-10-01".data "14:30".data =
      some (⟨2024, 10, 1⟩, ⟨14, 30⟩, ⟨15, 0⟩) := by
  have := claim_C4_normalizer_end_hour "2024-10-01".data "14:30".data
    ⟨2024, 10, 1⟩ 14 30 (by decide) (by decide) (by decide) (by decide)
    (by decide) (by decide)
  simpa using this

/-- If the date string or the time string fails to parse, the slot
normalizer fails (the `ValueError` escapes). -/
theorem normalize_slot_none {bd ts : List Char}
    (h : get_date_object_from_string bd = none ∨
         get_time_object_from_string ts = none) :
    normalize_slot bd ts = none := by
  unfold normalize_slot
  cases hsplit : split_two_ints ts with
  | none => rfl
  | some p =>
    obtain ⟨sh, sm⟩ := p
    dsimp only
    rcases h with hd | ht
    · rw [hd]
    · cases hdate : get_date_object_from_string bd with
      | none => rfl
      | some dObj =>
        dsimp only
        rw [ht]

/-- C5 counterexample to the claim as stated: on the malformed date
"bad-date" the admission path fails with a plain `ValueError`, and the
HTTP response FastAPI produces for that uncaught exception has status 500,
not the claimed 400 (only `ClubNotFound` and `SlotTaken` are raised as
`HTTPException(400)`). -/
theorem claim_C5_counterexample :
    (create_booking "Chess Club" 1 "bad-date" "14:00" chess_state).2 =
      .error .valueError ∧
    BookingError.valueError.httpStatus = 500 ∧
    BookingError.valueError.httpStatus ≠ 400 :=
  ⟨rfl, rfl, by decide⟩

/-- C5 (amended): when the club resolves, `create_booking` fails with the
uncaught `ValueError` (surfaced as HTTP 500, not 400) whenever the date
string is not parseable as `YYYY-MM-DD` or the time string does not parse
as two colon-separated integers with hour in [0,23] and minute in [0,59];
the state is unchanged.  In particular this holds for the inputs
"2024-13-01", "bad-date", "25:00" and "10:99" (see the witness). -/
theorem claim_C5_amended_malformed_input (cn : String) (space : Int)
    (bd ts : String) (db : AppState)
    (hclub : (verify_club_exists cn db.clubs).isSome = true)
    (h : get_date_object_from_string bd.data = none ∨
         get_time_object_from_string ts.data = none) :
    create_booking cn space bd ts db = (db, .error .valueError) := by
  unfold create_booking
  cases hc : verify_club_exists cn db.clubs with
  | none => rw [hc] at hclub; exact absurd hclub (by simp)
  | some club =>
    dsimp only
    rw [normalize_slot_none h]

/-- Concrete instances of C5 (amended): the four malformed inputs named by
the spec each make the admission fail with the `ValueError`. -/
theorem claim_C5_witness :
    create_booking "Chess Club" 1 "2024-13-01" "14:00" chess_state =
      (chess_state, .error .valueError) ∧
    create_booking "Chess Club" 1 "bad-date" "14:00" chess_state =
      (chess_state, .error .valueError) ∧
    create_booking "Chess Club" 1 "2024-10-01" "25:00" chess_state =
      (chess_state, .error .valueError) ∧
    create_booking "Chess Club" 1 "2024-10-01" "10:99" chess_state =
      (chess_state, .error .valueError) :=
  ⟨claim_C5_amended_malformed_input _ _ _ _ _ (by decide) (Or.inl (by decide)),
   claim_C5_amended_malformed_input _ _ _ _ _ (by decide) (Or.inl (by decide)),
   claim_C5_amended_malformed_input _ _ _ _ _ (by decide) (Or.inr (by decide)),
   claim_C5_amended_malformed_input _ _ _ _ _ (by decide) (Or.inr (by decide))⟩

/-- Modelled from the spec wording "end_time is exactly one hour after
start_time" (with hour-23 wraparound): one wall-clock hour later, minutes
preserved.  Used only to compare the spec's wording with what the code
stores. -/
def spec_one_hour_after (t : Time) : Time :=
  ⟨(t.hour + 1) % 24, t.minute⟩

/-- C6 counterexample to the claim as stated: admitting the valid start
time "14:30" (minute nonzero) stores end_time 15:00, which is not one hour
after the stored start_time 14:30. -/
theorem claim_C6_counterexample :
    (create_booking "Chess Club" 1 "2024-10-01" "14:30" chess_state).1.bookings =
      [⟨1, 1, 1, ⟨2024, 10, 1⟩, ⟨14, 30⟩, ⟨15, 0⟩⟩] ∧
    (⟨15, 0⟩ : Time) ≠ spec_one_hour_after ⟨14, 30⟩ :=
  ⟨rfl, by decide⟩

/-- The end time produced by a successful normalization always has minute 0
and hour equal to the start hour plus one, wrapping 23 to 0. -/
theorem normalize_slot_end_time {bd ts : List Char} {d : Date} {s e : Time}
    (h : normalize_slot bd ts = some (d, s, e)) :
    e.minute = 0 ∧ e.hour = (if s.hour = 23 then 0 else s.hour + 1) := by
  unfold normalize_slot at h
  split at h
  next => exact Option.noConfusion h
  next sh sm hsplit =>
    dsimp only at h
    split at h
    next => exact Option.noConfusion h
    next dObj hdate =>
      split at h
      next => exact Option.noConfusion h
      next st hst =>
        split at h
        next => exact Option.noConfusion h
        next et het =>
          simp only [Option.some.injEq, Prod.mk.injEq] at h
          obtain ⟨rfl, rfl, rfl⟩ := h
          rw [get_time_of_split_two hsplit] at hst
          unfold mk_time at hst
          split at hst
          next hcond =>
            simp only [Option.some.injEq] at hst
            obtain ⟨h0, h23, _, _⟩ := hcond
            by_cases hsh : sh = 23
            · subst hsh
              rw [show get_end_hour_from_start_hour 23 = Int.ofNat 0 from rfl,
                end_hour_roundtrip 0 (by omega)] at het
              simp only [Option.some.injEq] at het
              subst het
              subst hst
              simp
            · have hlt : sh < 23 := lt_of_le_of_ne h23 hsh
              have hend : get_end_hour_from_start_hour sh = Int.ofNat (sh.toNat + 1) := by
                unfold get_end_hour_from_start_hour
                rw [if_pos hlt]
                show sh + 1 = ((sh.toNat + 1 : Nat) : Int)
                omega
              rw [hend, end_hour_roundtrip (sh.toNat + 1) (by omega)] at het
              simp only [Option.some.injEq] at het
              subst het
              subst hst
              have : sh.toNat ≠ 23 := by omega
              simp [this]
          next => exact Option.noConfusion hst

/-- C6 (amended): every booking record created by a successful admission
has `end_time` with minute 0 and hour equal to the start hour plus one,
wrapping to 0 when the start hour is 23.  The start minute is NOT carried
into the end time, so `end_time` is exactly one wall-clock hour after
`start_time` only when the start minute is 0. -/
theorem claim_C6_amended_end_time (cn : String) (space : Int) (bd ts : String)
    (db db2 : AppState) (bid : Nat)
    (hrun : create_booking cn space bd ts db = (db2, .ok bid)) :
    ∃ b : Booking, db2.bookings = db.bookings ++ [b] ∧
      b.end_time.minute = 0 ∧
      b.end_time.hour = (if b.start_time.hour = 23 then 0 else b.start_time.hour + 1) := by
  unfold create_booking at hrun
  split at hrun
  next =>
    rw [Prod.mk.injEq] at hrun
    exact Except.noConfusion hrun.2
  next club hclub =>
    split at hrun
    next =>
      rw [Prod.mk.injEq] at hrun
      exact Except.noConfusion hrun.2
    next dObj sObj eObj hnorm =>
      split at hrun
      next =>
        rw [Prod.mk.injEq] at hrun
        exact Except.noConfusion hrun.2
      next hcheck =>
        rw [Prod.mk.injEq] at hrun
        obtain ⟨hdb2, _⟩ := hrun
        refine ⟨⟨db.next_booking_id, club.club_id, space, dObj, sObj, eObj⟩, ?_, ?_, ?_⟩
        · rw [← hdb2]
        · exact (normalize_slot_end_time hnorm).1
        · exact (normalize_slot_end_time hnorm).2

/-- Concrete instance of C6 (amended): the booking created from start
"14:30" has end minute 0 and end hour 15. -/
theorem claim_C6_witness :
    ∃ b : Booking,
      (create_booking "Chess Club" 1 "2024-10-01" "14:30" chess_state).1.bookings =
        chess_state.bookings ++ [b] ∧
      b.end_time.minute = 0 ∧
      b.end_time.hour = (if b.start_time.hour = 23 then 0 else b.start_time.hour + 1) :=
  claim_C6_amended_end_time "Chess Club" 1 "2024-10-01" "14:30" chess_state
    (create_booking "Chess Club" 1 "2024-10-01" "14:30" chess_state).1 1 rfl

/-- C7 counterexample to the claim as stated: with the wrapped booking
[23:00, 00:00) stored for space 1 on 2024-10-01, the candidate
[23:30, 00:00) on the same space and date (exactly what the normalizer
produces for start "23:30") is NOT reported as a conflict -- so the
conflict is not reported for every candidate interval: the third clause
also requires `existing.start >= candidate.start`. -/
theorem claim_C7_counterexample :
    check_existing_booking 1 ⟨2024, 10, 1⟩ ⟨23, 30⟩ ⟨0, 0⟩
      [⟨1, 1, 1, ⟨2024, 10, 1⟩, ⟨23, 0⟩, ⟨0, 0⟩⟩] = none := by decide

/-- C7 (amended): if a booking with start_time 23:00 and wrapped end_time
00:00 exists for a given space_id and booking_date, then
`check_existing_booking` reports a conflict for every candidate interval on
that space and date whose start time is at most 23:00 -- which includes
every wall-clock-disjoint slot such as [10:00, 11:00) -- because the third
clause `existing.start >= candidate.start AND existing.end <=
candidate.end` is then satisfied: `existing.end = 00:00` is the minimum
time-of-day value.  Candidates starting strictly after 23:00 escape the
clause (see the counterexample). -/
theorem claim_C7_amended_wrapped_blocks_day (space : Int) (d : Date)
    (db : List Booking) (b : Booking) (s e : Time)
    (hb : b ∈ db) (hsp : b.space_id = space) (hd : b.booking_date = d)
    (hstart : b.start_time = ⟨23, 0⟩) (hend : b.end_time = ⟨0, 0⟩)
    (hs : Time.leb s ⟨23, 0⟩ = true) :
    (check_existing_booking space d s e db).isSome = true := by
  unfold check_existing_booking
  rw [List.find?_isSome]
  refine ⟨b, hb, ?_⟩
  simp only [Bool.and_eq_true, decide_eq_true_iff]
  refine ⟨⟨hsp, hd⟩, ?_⟩
  rw [hstart, hend]
  rw [Time.leb_iff] at hs
  simp only [booking_overlaps, Bool.or_eq_true, Bool.and_eq_true,
    Time.leb_iff, Time.ltb_iff]
  dsimp only at hs ⊢
  omega

/-- Concrete instance of C7 (amended): the wall-clock-disjoint candidate
[10:00, 11:00) is reported as conflicting with the stored wrapped booking
[23:00, 00:00). -/
theorem claim_C7_witness :
    (check_existing_booking 1 ⟨2024, 10, 1⟩ ⟨10, 0⟩ ⟨11, 0⟩
      [⟨1, 1, 1, ⟨2024, 10, 1⟩, ⟨23, 0⟩, ⟨0, 0⟩⟩]).isSome = true :=
  claim_C7_amended_wrapped_blocks_day 1 ⟨2024, 10, 1⟩
    [⟨1, 1, 1, ⟨2024, 10, 1⟩, ⟨23, 0⟩, ⟨0, 0⟩⟩]
    ⟨1, 1, 1, ⟨2024, 10, 1⟩, ⟨23, 0⟩, ⟨0, 0⟩⟩ ⟨10, 0⟩ ⟨11, 0⟩
    (by simp) rfl rfl rfl rfl (by decide)

/-- C8: the conflict check only ever consults stored bookings with the same
`space_id` (and `booking_date`) as the candidate: if every stored booking
has a different `space_id` -- in particular a booking with an identical,
overlapping interval on another space -- no conflict is reported. -/
theorem claim_C8_cross_space_independence (space : Int) (d : Date)
    (s e : Time) (db : List Booking)
    (h : ∀ b ∈ db, b.space_id ≠ space) :
    check_existing_booking space d s e db = none := by
  unfold check_existing_booking
  rw [List.find?_eq_none]
  intro b hb
  intro hx
  simp only [Bool.and_eq_true, decide_eq_true_iff] at hx
  exact h b hb hx.1.1

/-- Concrete instance of C8: a stored booking on space 2 with exactly the
candidate's interval and date does not conflict with a candidate on
space 1. -/
theorem claim_C8_witness :
    check_existing_booking 1 ⟨2024, 10, 1⟩ ⟨10, 0⟩ ⟨11, 0⟩
      [⟨1, 1, 2, ⟨2024, 10, 1⟩, ⟨10, 0⟩, ⟨11, 0⟩⟩] = none :=
  claim_C8_cross_space_independence 1 ⟨2024, 10, 1⟩ ⟨10, 0⟩ ⟨11, 0⟩
    [⟨1, 1, 2, ⟨2024, 10, 1⟩, ⟨10, 0⟩, ⟨11, 0⟩⟩] (by decide)

/-- C9: when no stored club has the requested name, `create_booking` fails
with the 400 club-not-found `HTTPException` and the state -- in particular
the bookings table -- is returned unchanged: no row is inserted. -/
theorem claim_C9_unknown_club (cn : String) (space : Int) (bd ts : String)
    (db : AppState) (h : ∀ c ∈ db.clubs, c.club_name ≠ cn) :
    create_booking cn space bd ts db =
      (db, .error (.httpException 400 "Club not found.")) := by
  unfold create_booking
  have hnone : verify_club_exists cn db.clubs = none := by
    unfold verify_club_exists
    rw [List.find?_eq_none]
    intro c hc
    simp only [decide_eq_true_iff]
    exact h c hc
  rw [hnone]

/-- Concrete instance of C9: admitting for the unknown club "Nonexistent"
fails with the club-not-found error and leaves the ledger untouched. -/
theorem claim_C9_witness :
    create_booking "Nonexistent" 1 "2024-10-01" "14:00" chess_state =
      (chess_state, .error (.httpException 400 "Club not found.")) :=
  claim_C9_unknown_club "Nonexistent" 1 "2024-10-01" "14:00" chess_state
    (by decide)

/-- C10: for every hour integer h in [0,23], formatting h via the end-time
formatter (producing "HH:00") and re-parsing the result with the time
parser yields the time with hour h and minute 0. -/
theorem claim_C10_format_parse_roundtrip (h : Nat) (hle : h ≤ 23) :
    get_time_object_from_string (get_end_time_from_end_hour (Int.ofNat h)) =
      some ⟨h, 0⟩ :=
  end_hour_roundtrip h hle

/-- Concrete instance of C10: hour 11 round-trips through "11:00". -/
theorem claim_C10_witness :
    get_time_object_from_string (get_end_time_from_end_hour (Int.ofNat 11)) =
      some ⟨11, 0⟩ :=
  claim_C10_format_parse_roundtrip 11 (by decide)
